import Mathlib

/-!
Shallow embedding of the AsyncLoop library (src/AsyncUtils.js): the Loop
engine with its cancellation paths, the named-loop registry behind
Loop.unique, the List iterator built on the Loop engine, the Thread
message protocol, and the ForkPromiseProxy behind If.

The host scheduler is single-threaded and cooperative: a setTimeout
callback runs only after the currently running synchronous code finishes,
and the ticks of one loop run one at a time.  The embedding therefore
models a run of a loop as a deterministic, fuel-driven iteration of the
tick body, and models a JS promise as a single-resolution state cell.
-/

/-- State of a single-resolution deferred value (a JS promise together
with its captured resolve and reject callbacks): settling an already
settled promise is a no-op. -/
inductive PromiseState (α β : Type) where
  | pending
  | fulfilled (v : α)
  | rejected (r : β)
deriving DecidableEq, Repr

variable {α β ε : Type}

/-- The resolve callback of a deferred: only a pending promise changes. -/
def PromiseState.resolve (p : PromiseState α β) (v : α) : PromiseState α β :=
  match p with
  | .pending => .fulfilled v
  | _ => p

/-- The reject callback of a deferred: only a pending promise changes. -/
def PromiseState.reject (p : PromiseState α β) (r : β) : PromiseState α β :=
  match p with
  | .pending => .rejected r
  | _ => p

/-- JS truthiness of a value that is either null (none) or a number:
null, 0 are falsy. -/
def truthyOptNat (v : Option Nat) : Bool :=
  match v with
  | none => false
  | some n => n != 0

/-- JS defaulting idiom `v || d` for a string argument that may be
null or undefined (none) or empty (falsy). -/
def jsDefault (v : Option String) (d : String) : String :=
  match v with
  | none => d
  | some s => if s = "" then d else s

/-- State of one Loop instance (src/AsyncUtils.js, constructor at line 74).
`job` records whether a scheduler callback is currently pending (the JS
field holds a timer id; a stale id of an already fired timer is observably
the same as null, since clearTimeout on it is a no-op).  `iteration` is the
local counter of `start`, placed in the state because the tick closure
reads and writes it.  `calls` is a ghost counter of handle invocations,
used only in statements.  `ext` is extra mutable state reachable from the
handle (closure variables of List.find, for example); the handle function
itself is passed to the tick separately, since it is code, not data. -/
structure LoopState (ε : Type) where
  maxIterations : Option Nat
  iteration : Nat
  job : Bool
  promise : PromiseState Unit String
  calls : Nat
  ext : ε
deriving DecidableEq, Repr

/-- Loop.prototype.done (line 116): clear the pending tick if any and
resolve the outcome promise. -/
def Loop.done (s : LoopState ε) : LoopState ε :=
  { s with job := false, promise := s.promise.resolve () }

/-- Loop.prototype.terminate (line 132): clear the pending tick if any and
reject the outcome promise with the formatted reason. -/
def Loop.terminate (type msg : Option String) (s : LoopState ε) : LoopState ε :=
  { s with job := false,
           promise := s.promise.reject
             ("[" ++ jsDefault type ("Terminate") ++ "] " ++ jsDefault msg ("Unknown reason")) }

/-- Loop.prototype.cancel (line 148). -/
def Loop.cancel (msg : Option String) (s : LoopState ε) : LoopState ε :=
  Loop.terminate (some ("Cancel")) msg s

/-- Loop.prototype.kill (line 157). -/
def Loop.kill (msg : Option String) (s : LoopState ε) : LoopState ε :=
  Loop.terminate (some ("Kill")) msg s

/-- A loop handle: invoked once per tick with `this` bound to the Loop, so
it may mutate the loop state (List.find calls this.done()).  The Nat
argument is the 1-based count of invocations so far including this one; it
stands for the closure state an actual JS handle would carry (the
index variable of each is this count minus one), made explicit so that handles stay
first-order data over `LoopState`. -/
def Loop.Handle (ε : Type) : Type :=
  Nat → LoopState ε → LoopState ε × Bool

/-- One firing of the scheduled tick `wait` (Loop.prototype.start,
lines 92-108): the pending timer is consumed, the handle runs with `this`
bound to the loop, a truthy return ends the loop via done(), otherwise the
iteration cap is checked (`!!this.maxIterations && iteration ===
this.maxIterations`) and the loop either kills itself or increments the
iteration counter and schedules the next tick. -/
def Loop.fire (h : Loop.Handle ε) (s : LoopState ε) : LoopState ε :=
  let s0 : LoopState ε := { s with job := false, calls := s.calls + 1 }
  let r := h s0.calls s0
  if r.2 = true then
    Loop.done r.1
  else if truthyOptNat r.1.maxIterations = true ∧ r.1.maxIterations = some r.1.iteration then
    Loop.kill (some ("maximum iterations reached.")) r.1
  else
    { r.1 with iteration := r.1.iteration + 1, job := true }

/-- Running the cooperative scheduler for at most `fuel` turns: each turn
fires the pending tick if there is one.  Once no tick is pending the state
is final. -/
def Loop.runLoop (h : Loop.Handle ε) : Nat → LoopState ε → LoopState ε
  | 0, s => s
  | fuel + 1, s => if s.job = true then Loop.runLoop h fuel (Loop.fire h s) else s

/-- The Loop constructor (line 74): `this.maxIterations = iterations || null`,
promise pending, no scheduled tick. -/
def Loop.mkState (iterations : Option Nat) (e : ε) : LoopState ε :=
  { maxIterations := if truthyOptNat iterations = true then iterations else none,
    iteration := 1,
    job := false,
    promise := .pending,
    calls := 0,
    ext := e }

/-- Loop.prototype.start (line 89): set the local iteration counter to 1
and schedule the first tick. -/
def Loop.start (s : LoopState ε) : LoopState ε :=
  { s with iteration := 1, job := true }

/-- The state of a loop right after `Loop.until(handle, iterations)`
constructed and started it (line 169). -/
def Loop.startState (iterations : Option Nat) (e : ε) : LoopState ε :=
  Loop.start (Loop.mkState iterations e)

/-- The final state of `Loop.until(handle, iterations)` after the
scheduler has run for `fuel` turns. -/
def Loop.untilRun (h : Loop.Handle ε) (iterations : Option Nat) (fuel : Nat) (e : ε) :
    LoopState ε :=
  Loop.runLoop h fuel (Loop.startState iterations e)

/-- A handle that only returns a truthiness per invocation and does not
touch the loop state (the common case for Loop.until callers). -/
def Loop.pureHandle (h : Nat → Bool) : Loop.Handle ε :=
  fun k s => (s, h k)

/-- The state of a pure-handle loop just before its k-th tick fires
(1-based): k - 1 invocations have happened, none terminal. -/
def Loop.pureMid (M : Option Nat) (k : Nat) : LoopState Unit :=
  { maxIterations := M,
    iteration := k,
    job := true,
    promise := .pending,
    calls := k - 1,
    ext := () }

/-- Replace the element at position i of a list by f of it (the mutation
`loopMap[id].cancel(...)` performed on a loop stored in a list of all
allocated loops). -/
def listUpdate {γ : Type} : List γ → Nat → (γ → γ) → List γ
  | [], _, _ => []
  | x :: xs, 0, f => f x :: xs
  | x :: xs, i + 1, f => x :: listUpdate xs i f

/-- The process-wide state relevant to Loop.unique (lines 176-203): every
loop allocated so far, in allocation order, and the module-level `loopMap`
from identifier to the index of the loop registered under it.  A JS object
holds at most one value per key, hence the function type. -/
structure World (ε : Type) where
  loops : List (LoopState ε)
  loopMap : String → Option Nat

/-- The initial registry state: no loops, empty map. -/
def World.empty : World ε :=
  { loops := [], loopMap := fun _ => none }

/-- Loop.unique(id).until(handle, iterations) (lines 187-202): if the map
holds a loop under id, cancel it with the overriding message; then
construct and start a new loop, register it under id (overwriting), and
hand its promise back. -/
def World.uniqueUntil (w : World ε) (id : String) (iterations : Option Nat) (e : ε) :
    World ε :=
  let cancelOld : LoopState ε → LoopState ε :=
    Loop.cancel (some ("Overriting unique task `" ++ id ++ "` with a newer one."))
  let w1 : World ε :=
    match w.loopMap id with
    | some i => { w with loops := listUpdate w.loops i cancelOld }
    | none => w
  { loops := w1.loops ++ [Loop.startState iterations e],
    loopMap := fun k => if k = id then some w1.loops.length else w1.loopMap k }

/-- A user handle passed to ListHandler.each: called with the current item
(undefined, that is none, when the index is out of range), the current
index, and `this` bound to the driving Loop, whose state it may mutate
(List.find calls this.done()). -/
def UserHandle (ε α : Type) : Type :=
  Option α → Nat → LoopState ε → LoopState ε

/-- The loop handle each passes to Loop.until (lines 403-409): invoke the
user handle on `list[index]` and `index`, increment the closure variable
`index`, and report completion once `index > list.length - 1`.  The
invocation count k stands for the closure variable: at the k-th invocation
the pre-increment index is k - 1 and the post-increment index is k. -/
def ListHandler.eachHandle (l : List α) (uh : UserHandle ε α) : Loop.Handle ε :=
  fun k s =>
    (uh l[k - 1]? (k - 1) s, decide ((k : Int) > (l.length : Int) - 1))

/-- ListHandler.prototype.each (line 400) after `fuel` scheduler turns:
`Loop.until` with no iteration bound, driven by the each closure. -/
def ListHandler.each (l : List α) (uh : UserHandle ε α) (fuel : Nat) (e : ε) :
    LoopState ε :=
  Loop.untilRun (ListHandler.eachHandle l uh) none fuel e

/-- A user handle that only reads the item and index and updates its own
closure state, never touching the loop (the shape of every handle a caller
passes to each directly, and of the map and filter accumulator closures). -/
def liftUH (f : Option α → Nat → ε → ε) : UserHandle ε α :=
  fun item i s => { s with ext := f item i s.ext }

/-- The closure state of one ListHandler.find call (lines 441-458): the
`resolved` flag and the outer promise.  The outer promise fulfills with
the JS object {item, index} (item is undefined, that is none, only when
find runs on an empty list) and rejects with null, which carries no data,
so the rejection payload type is Unit. -/
structure FindExt (α : Type) where
  resolved : Bool
  out : PromiseState (Option α × Nat) Unit
deriving DecidableEq, Repr

/-- The handle find passes to each (lines 444-449): on a match set
`resolved`, resolve the outer promise with {item, index}, and call
this.done() on the loop. -/
def ListHandler.findUserHandle (cond : Option α → Nat → Bool) : UserHandle (FindExt α) α :=
  fun item i s =>
    if cond item i = true then
      Loop.done { s with ext := { resolved := true, out := s.ext.out.resolve (item, i) } }
    else s

/-- ListHandler.prototype.find (line 441) after `fuel` scheduler turns:
run each with the find handle; when the loop promise fulfills, the then
continuation rejects the outer promise with null unless `resolved` was
set. -/
def ListHandler.find (l : List α) (cond : Option α → Nat → Bool) (fuel : Nat) :
    LoopState (FindExt α) :=
  let s := ListHandler.each l (ListHandler.findUserHandle cond) fuel
    { resolved := false, out := .pending }
  match s.promise with
  | .fulfilled _ =>
      if s.ext.resolved = true then s
      else { s with ext := { s.ext with out := s.ext.out.reject () } }
  | _ => s

/-- The least index j < m with cond (l[j]) j, if any: the first match seen
by find among the first m invocations of its handle. -/
def firstMatchUnder (l : List α) (cond : Option α → Nat → Bool) : Nat → Option Nat
  | 0 => none
  | m + 1 =>
    match firstMatchUnder l cond m with
    | some j => some j
    | none => if cond l[m]? m = true then some m else none

/-- The find closure state after the first m invocations of its handle. -/
def findExtAfter (l : List α) (cond : Option α → Nat → Bool) (m : Nat) : FindExt α :=
  match firstMatchUnder l cond m with
  | some j => { resolved := true, out := .fulfilled (l[j]?, j) }
  | none => { resolved := false, out := .pending }

/-- The state of the find-driving loop just before its k-th tick
(1-based, k - 1 invocations behind it): if a match occurred already, the
loop promise was fulfilled by this.done() yet the loop kept rescheduling,
because the each closure still returned a falsy index check. -/
def eachMid (l : List α) (cond : Option α → Nat → Bool) (k : Nat) :
    LoopState (FindExt α) :=
  { maxIterations := none,
    iteration := k,
    job := true,
    promise := match firstMatchUnder l cond (k - 1) with
               | some _ => .fulfilled ()
               | none => .pending,
    calls := k - 1,
    ext := findExtAfter l cond (k - 1) }

/-- The final state of the find-driving loop on a nonempty list: exactly
length-many invocations, the loop promise fulfilled, no tick pending. -/
def finalEach (l : List α) (cond : Option α → Nat → Bool) : LoopState (FindExt α) :=
  { maxIterations := none,
    iteration := l.length,
    job := false,
    promise := .fulfilled (),
    calls := l.length,
    ext := findExtAfter l cond l.length }

/-- A JS value as it travels through the Thread promise: a plain result
value, the structured {message, stack} error payload the worker template
marshals a thrown exception into, or a plain string (the "Terminated"
rejection reason). -/
inductive TVal (α : Type) where
  | val (a : α)
  | errObj (message : String) (stack : String)
  | str (s : String)
deriving DecidableEq, Repr

/-- An exception thrown by the user handle inside the worker, reduced to
the two fields the template reads from it. -/
structure JsError where
  message : String
  stack : String
deriving DecidableEq, Repr

/-- The request envelope Thread.prototype.exec posts to the worker
(lines 268-271): {type: "exec", data: params}. -/
structure ExecRequest (α : Type) where
  type : String
  data : List α
deriving DecidableEq, Repr

/-- The response envelope the worker posts back: {type: "result", data: v}
or {type: "error", data: {message, stack}}. -/
structure ThreadResponse (α : Type) where
  type : String
  data : TVal α
deriving DecidableEq, Repr

/-- The dispatcher the Template function (lines 218-242) installs as the
onmessage handler of the worker: on an "exec" message apply the user handle (which may
throw, modeled by Except) to the argument list; post {type: "result",
data: result} on success and {type: "error", data: {message: ex.message,
stack: ex.stack}} on a throw.  Any other message type is ignored (no
response). -/
def Thread.template (handle : List α → Except JsError α) (m : ExecRequest α) :
    Option (ThreadResponse α) :=
  if m.type = "exec" then
    match handle m.data with
    | .ok r => some { type := "result", data := .val r }
    | .error ex => some { type := "error", data := .errObj ex.message ex.stack }
  else none

/-- State of one Thread instance (constructor at line 244): whether the
worker exists (this.worker !== null), whether the object URL is held, and
the deferred of the current exec invocation (null before the first exec).
The promise resolves with whatever a "result" message carries and rejects
with an "error" payload or with the string "Terminated". -/
structure ThreadState (α : Type) where
  worker : Bool
  url : Bool
  deferred : Option (PromiseState (TVal α) (TVal α))
deriving DecidableEq, Repr

/-- A freshly constructed Thread: no worker, no url, no deferred. -/
def Thread.mkState : ThreadState α :=
  { worker := false, url := false, deferred := none }

/-- Thread.prototype.start (line 294) on a thread with no live worker:
create the object URL and the worker.  (With a live worker it would first
delegate to terminate.) -/
def Thread.startFresh (t : ThreadState α) : ThreadState α :=
  { t with worker := true, url := true }

/-- Thread.prototype.exec (line 258): install a fresh pending deferred,
then post {type: "exec", data: params || []} to the worker.  If the worker
is null the postMessage call throws a TypeError, so no request is sent
(the none in the second component). -/
def Thread.exec (t : ThreadState α) (params : Option (List α)) :
    ThreadState α × Option (ExecRequest α) :=
  let t1 : ThreadState α := { t with deferred := some .pending }
  if t1.worker = true then (t1, some { type := "exec", data := params.getD [] })
  else (t1, none)

/-- The onmessage handler exec installs (lines 273-285): resolve the
deferred on a "result" message, reject it on an "error" message, ignore
any other type.  exec always installs a deferred first, so the none case
is unreachable after an exec. -/
def Thread.onmessage (t : ThreadState α) (m : ThreadResponse α) : ThreadState α :=
  match t.deferred with
  | some d =>
      if m.type = "result" then { t with deferred := some (d.resolve m.data) }
      else if m.type = "error" then { t with deferred := some (d.reject m.data) }
      else t
  | none => t

/-- Thread.prototype.terminate (line 309): this.worker.terminate() (a
TypeError when the worker is null, nothing yet mutated), revoke the object
URL, null both fields, then this.deferred.reject("Terminated") (a
TypeError when no exec ever ran, with worker and url already nulled).  The
Bool records whether a TypeError was thrown. -/
def Thread.terminate (t : ThreadState α) : ThreadState α × Bool :=
  if t.worker = false then (t, true)
  else
    match t.deferred with
    | none => ({ t with worker := false, url := false }, true)
    | some d =>
        ({ t with worker := false, url := false,
                  deferred := some (d.reject (.str ("Terminated"))) }, false)

/-- A value flowing through the If proxy chain: the boolean a condition
produces, a string, null (the initial value of `returns` in the fork
continuation), or undefined (what the default no-op handles return). -/
inductive FV where
  | bool (b : Bool)
  | str (s : String)
  | null
  | undefined
deriving DecidableEq, Repr

set_option genSizeOfSpec false in
/-- The ForkPromiseProxy state (lines 484-545): the value its wrapped
promise resolves to (the wrapped promise settles strictly after then and
else registration, which is synchronous, so the handles stored here are
the ones visible at resolution time), and the two registered handles.  A
handle may return a plain value or another proxy, whose inner promise is
then adopted. -/
inductive ForkProxy where
  | mk (promiseVal : FV) (thenHandle : Unit → FV ⊕ ForkProxy)
       (elseHandle : Unit → FV ⊕ ForkProxy)

/-- The value the wrapped promise of a proxy resolves to. -/
def ForkProxy.promiseVal : ForkProxy → FV
  | .mk v _ _ => v

/-- The registered then handle of a proxy. -/
def ForkProxy.thenHandle : ForkProxy → Unit → FV ⊕ ForkProxy
  | .mk _ t _ => t

/-- The registered else handle of a proxy. -/
def ForkProxy.elseHandle : ForkProxy → Unit → FV ⊕ ForkProxy
  | .mk _ _ e => e

/-- ForkPromiseProxy.prototype.resolve (line 514): dynamic dispatch
this[type + "Handle"]().  Only ever called with "then" or "else"; any
other string would look up an undefined property and throw, which no call
site can reach. -/
def ForkProxy.resolve (p : ForkProxy) (type : String) : FV ⊕ ForkProxy :=
  if type = "then" then p.thenHandle ()
  else if type = "else" then p.elseHandle ()
  else .inl .undefined

/-- The value this.next resolves to: the continuation installed on the
wrapped promise in the constructor (lines 490-503).  `returns` starts as
null, is replaced by the then handle result on strictly-true and by the
else handle result on strictly-false, and a proxy result is unwrapped to
its inner promise, which the continuation adopts. -/
def ForkProxy.next (p : ForkProxy) : FV :=
  let returns : FV ⊕ ForkProxy :=
    if p.promiseVal = .bool true then p.resolve ("then")
    else if p.promiseVal = .bool false then p.resolve ("else")
    else .inl .null
  match returns with
  | .inl v => v
  | .inr q => q.promiseVal

/-- ForkPromiseProxy.prototype.then (line 525): store the handle, return
this.  (then is a reserved word in Lean, hence the M suffix.) -/
def ForkProxy.thenM (p : ForkProxy) (h : Unit → FV ⊕ ForkProxy) : ForkProxy :=
  .mk p.promiseVal h p.elseHandle

/-- ForkPromiseProxy.prototype.else (line 538): store the handle, return a
new proxy wrapping this.next, with the default no-op handles the
constructor installs.  The first component is the mutated receiver, the
second the returned proxy.  (else is a reserved word in Lean, hence the M
suffix.) -/
def ForkProxy.elseM (p : ForkProxy) (h : Unit → FV ⊕ ForkProxy) :
    ForkProxy × ForkProxy :=
  let p1 : ForkProxy := .mk p.promiseVal p.thenHandle h
  (p1, .mk (ForkProxy.next p1) (fun _ => .inl .undefined) (fun _ => .inl .undefined))

/-- If(condition) (line 553): a proxy over a promise that resolves on the
next scheduler tick with condition(), carrying the default no-op
handles. -/
def If (cond : Unit → FV) : ForkProxy :=
  .mk (cond ()) (fun _ => .inl .undefined) (fun _ => .inl .undefined)

/-- The outer proxy of If(cond).then(fA).else(fB). -/
def IfChain (cond : Unit → FV) (fA fB : Unit → FV ⊕ ForkProxy) : ForkProxy :=
  (((If cond).thenM fA).elseM fB).2

theorem PromiseState.reject_reject (p : PromiseState α β) (r1 r2 : β) :
    (p.reject r1).reject r2 = p.reject r1 := by
  cases p <;> rfl

theorem PromiseState.resolve_reject (p : PromiseState α β) (v : α) (r : β) :
    (p.resolve v).reject r = p.resolve v := by
  cases p <;> rfl

theorem PromiseState.reject_resolve (p : PromiseState α β) (r : β) (v : α) :
    (p.reject r).resolve v = p.reject r := by
  cases p <;> rfl

theorem Loop.runLoop_succ (h : Loop.Handle ε) (n : Nat) (s : LoopState ε) :
    Loop.runLoop h (n + 1) s = if s.job = true then Loop.runLoop h n (Loop.fire h s) else s :=
  rfl

theorem Loop.runLoop_of_job_false (h : Loop.Handle ε) (n : Nat) (s : LoopState ε)
    (hj : s.job = false) : Loop.runLoop h n s = s := by
  cases n with
  | zero => rfl
  | succ m => rw [Loop.runLoop_succ, if_neg]; simp [hj]

theorem Loop.runLoop_add (h : Loop.Handle ε) (a b : Nat) (s : LoopState ε) :
    Loop.runLoop h (a + b) s = Loop.runLoop h b (Loop.runLoop h a s) := by
  induction a generalizing s with
  | zero => rw [Nat.zero_add]; rfl
  | succ a ih =>
    have hab : a + 1 + b = (a + b) + 1 := by omega
    rw [hab]
    by_cases hj : s.job = true
    · have h1 : Loop.runLoop h (a + 1) s = Loop.runLoop h a (Loop.fire h s) := by
        rw [Loop.runLoop_succ, if_pos hj]
      rw [Loop.runLoop_succ, if_pos hj, ih, h1]
    · have hj' : s.job = false := by simpa using hj
      rw [Loop.runLoop_succ, if_neg hj, Loop.runLoop_of_job_false _ _ _ hj',
        Loop.runLoop_of_job_false _ _ _ hj']

theorem Loop.pure_step (h : Nat → Bool) (M : Option Nat) (k : Nat) (hk : 1 ≤ k)
    (hf : h k = false) (hM : ¬(truthyOptNat M = true ∧ M = some k)) :
    Loop.fire (Loop.pureHandle h) (Loop.pureMid M k) = Loop.pureMid M (k + 1) := by
  have hk1 : k - 1 + 1 = k := by omega
  simp [Loop.fire, Loop.pureHandle, Loop.pureMid, hk1, hf, hM]

theorem Loop.pure_done (h : Nat → Bool) (M : Option Nat) (k : Nat) (hk : 1 ≤ k)
    (ht : h k = true) :
    Loop.fire (Loop.pureHandle h) (Loop.pureMid M k) =
      { maxIterations := M, iteration := k, job := false,
        promise := .fulfilled (), calls := k, ext := () } := by
  have hk1 : k - 1 + 1 = k := by omega
  simp [Loop.fire, Loop.pureHandle, Loop.pureMid, hk1, ht, Loop.done, PromiseState.resolve]

theorem Loop.pure_kill (h : Nat → Bool) (n : Nat) (hf : h n = false) (hn : n ≠ 0) :
    Loop.fire (Loop.pureHandle h) (Loop.pureMid (some n) n) =
      { maxIterations := some n, iteration := n, job := false,
        promise := .rejected ("[Kill] maximum iterations reached."), calls := n, ext := () } := by
  have hk1 : n - 1 + 1 = n := by omega
  have hs : ("[" ++ jsDefault (some ("Kill")) ("Terminate") ++ "] "
      ++ jsDefault (some ("maximum iterations reached.")) ("Unknown reason"))
      = "[Kill] maximum iterations reached." := by decide
  simp [Loop.fire, Loop.pureHandle, Loop.pureMid, hk1, hf, truthyOptNat, hn,
    Loop.kill, Loop.terminate, PromiseState.reject, hs]

theorem Loop.pure_run_steps (h : Nat → Bool) (M : Option Nat) :
    ∀ (d k : Nat), 1 ≤ k →
      (∀ i, k ≤ i → i < k + d → h i = false ∧ ¬(truthyOptNat M = true ∧ M = some i)) →
      Loop.runLoop (Loop.pureHandle h) d (Loop.pureMid M k) = Loop.pureMid M (k + d) := by
  intro d
  induction d with
  | zero => intro k _ _; rfl
  | succ d ih =>
    intro k hk hcond
    have hj : (Loop.pureMid M k).job = true := rfl
    rw [Loop.runLoop_succ, if_pos hj]
    obtain ⟨hfk, hMk⟩ := hcond k (Nat.le_refl k) (by omega)
    rw [Loop.pure_step h M k hk hfk hMk]
    have := ih (k + 1) (by omega) (fun i hi1 hi2 => hcond i (by omega) (by omega))
    rw [this]
    congr 1
    omega

theorem Loop.startState_eq_pureMid (M : Option Nat) :
    Loop.startState M () = Loop.pureMid (if truthyOptNat M = true then M else none) 1 := rfl


theorem Loop.pure_no_kill (M : Option Nat) (k i : Nat)
    (hbound : ∀ n, M = some n → n ≠ 0 → k ≤ n) (hik : i < k) :
    ¬(truthyOptNat (if truthyOptNat M = true then M else none) = true
      ∧ (if truthyOptNat M = true then M else none) = some i) := by
  rcases M with _ | n
  · simp [truthyOptNat]
  · by_cases hn0 : n = 0
    · subst hn0
      simp [truthyOptNat]
    · have hkn := hbound n rfl hn0
      rw [if_pos (by simp [truthyOptNat, hn0])]
      intro hc
      injection hc.2 with hi
      omega

/-- C1: for every positive n and every handle that never returns a truthy
value, Loop.until(handle, n) rejects its promise with the string
"[Kill] maximum iterations reached." after the handle has run exactly n
times, and no further tick ever fires, so the handle is never invoked an
(n+1)-th time. -/
theorem C1_until_kills_after_n (n : Nat) (h : Nat → Bool) (hn : 0 < n)
    (hf : ∀ k, h k = false) :
    (Loop.untilRun (Loop.pureHandle h) (some n) n ()).promise
        = .rejected ("[Kill] maximum iterations reached.")
    ∧ (Loop.untilRun (Loop.pureHandle h) (some n) n ()).calls = n
    ∧ (Loop.untilRun (Loop.pureHandle h) (some n) n ()).job = false
    ∧ ∀ m, Loop.runLoop (Loop.pureHandle h) m (Loop.untilRun (Loop.pureHandle h) (some n) n ())
        = Loop.untilRun (Loop.pureHandle h) (some n) n () := by
  obtain ⟨m, rfl⟩ : ∃ m, n = m + 1 := ⟨n - 1, by omega⟩
  have hM : truthyOptNat (some (m + 1)) = true := by simp [truthyOptNat]
  have hstart : Loop.startState (some (m + 1)) (() : Unit) = Loop.pureMid (some (m + 1)) 1 := by
    rw [Loop.startState_eq_pureMid, if_pos hM]
  have hrun : Loop.untilRun (Loop.pureHandle h) (some (m + 1)) (m + 1) ()
      = Loop.fire (Loop.pureHandle h) (Loop.pureMid (some (m + 1)) (m + 1)) := by
    rw [Loop.untilRun, hstart, Loop.runLoop_add (Loop.pureHandle h) m 1]
    rw [Loop.pure_run_steps h (some (m + 1)) m 1 (Nat.le_refl 1) ?steps]
    case steps =>
      intro i hi1 hi2
      refine ⟨hf i, ?_⟩
      intro hc
      injection hc.2 with hi
      omega
    have h1m : 1 + m = m + 1 := by omega
    rw [h1m, Loop.runLoop_succ,
      if_pos (show (Loop.pureMid (some (m + 1)) (m + 1)).job = true from rfl)]
    rfl
  rw [hrun, Loop.pure_kill h (m + 1) (hf (m + 1)) (by omega)]
  exact ⟨rfl, rfl, rfl, fun mm => Loop.runLoop_of_job_false _ _ _ rfl⟩

theorem C1_witness : 0 < 2
    ∧ (Loop.untilRun (ε := Unit) (Loop.pureHandle (fun _ => false)) (some 2) 2 ()).promise
        = .rejected ("[Kill] maximum iterations reached.") :=
  ⟨by decide, (C1_until_kills_after_n 2 (fun _ => false) (by decide) (fun _ => rfl)).1⟩

/-- C2: for every handle that first returns a truthy value on its k-th
invocation, with k within the iteration bound when one is set (a bound of
0 counts as unbounded, since the constructor coerces it to null), the loop
promise fulfills after exactly k invocations, no tick is left pending, and
the handle is never invoked a (k+1)-th time. -/
theorem C2_until_fulfills_at_k (M : Option Nat) (h : Nat → Bool) (k : Nat) (hk : 1 ≤ k)
    (ht : h k = true) (hf : ∀ i, 1 ≤ i → i < k → h i = false)
    (hbound : ∀ n, M = some n → n ≠ 0 → k ≤ n) :
    (Loop.untilRun (Loop.pureHandle h) M k ()).promise = .fulfilled ()
    ∧ (Loop.untilRun (Loop.pureHandle h) M k ()).calls = k
    ∧ (Loop.untilRun (Loop.pureHandle h) M k ()).job = false
    ∧ ∀ m, Loop.runLoop (Loop.pureHandle h) m (Loop.untilRun (Loop.pureHandle h) M k ())
        = Loop.untilRun (Loop.pureHandle h) M k () := by
  obtain ⟨m, rfl⟩ : ∃ m, k = m + 1 := ⟨k - 1, by omega⟩
  have hrun : Loop.untilRun (Loop.pureHandle h) M (m + 1) ()
      = Loop.fire (Loop.pureHandle h)
          (Loop.pureMid (if truthyOptNat M = true then M else none) (m + 1)) := by
    rw [Loop.untilRun, Loop.startState_eq_pureMid, Loop.runLoop_add (Loop.pureHandle h) m 1]
    rw [Loop.pure_run_steps h _ m 1 (Nat.le_refl 1) ?steps]
    case steps =>
      intro i hi1 hi2
      exact ⟨hf i hi1 (by omega), Loop.pure_no_kill M (m + 1) i hbound (by omega)⟩
    have h1m : 1 + m = m + 1 := by omega
    rw [h1m, Loop.runLoop_succ, if_pos (show
      (Loop.pureMid (if truthyOptNat M = true then M else none) (m + 1)).job = true from rfl)]
    rfl
  rw [hrun, Loop.pure_done h _ (m + 1) (by omega) ht]
  exact ⟨rfl, rfl, rfl, fun mm => Loop.runLoop_of_job_false _ _ _ rfl⟩

theorem C2_witness : 1 ≤ 2 ∧ ((fun j : Nat => j == 2) 2 = true)
    ∧ (Loop.untilRun (ε := Unit) (Loop.pureHandle (fun j => j == 2)) (some 5) 2 ()).promise
        = .fulfilled () := by
  refine ⟨by decide, by decide, ?_⟩
  exact (C2_until_fulfills_at_k (some 5) (fun j => j == 2) 2 (by decide) (by decide)
    (fun i hi1 hi2 => by
      have hi : i = 1 := by omega
      subst hi
      decide)
    (fun n hn hn0 => by
      injection hn with hn5
      omega)).1

/-- C9: a second termination on a settled Loop has no observable effect.
Terminating, cancelling, killing or completing a loop that some
termination method already settled leaves the state exactly as the first
call left it (the promise keeps the first reason, clearing the already
cleared scheduled tick changes nothing), and the scheduler never fires
another tick on it. -/
theorem C9_second_termination_noop {ε : Type} (s : LoopState ε)
    (t1 t2 m1 m2 : Option String) (h : Loop.Handle ε) (n : Nat) :
    Loop.terminate t2 m2 (Loop.terminate t1 m1 s) = Loop.terminate t1 m1 s
    ∧ Loop.cancel m2 (Loop.cancel m1 s) = Loop.cancel m1 s
    ∧ Loop.done (Loop.cancel m1 s) = Loop.cancel m1 s
    ∧ Loop.kill m2 (Loop.cancel m1 s) = Loop.cancel m1 s
    ∧ Loop.cancel m2 (Loop.done s) = Loop.done s
    ∧ Loop.runLoop h n (Loop.cancel m1 s) = Loop.cancel m1 s
    ∧ Loop.runLoop h n (Loop.done s) = Loop.done s := by
  refine ⟨?_, ?_, ?_, ?_, ?_, ?_, ?_⟩
  · simp [Loop.terminate, PromiseState.reject_reject]
  · simp [Loop.cancel, Loop.terminate, PromiseState.reject_reject]
  · simp [Loop.cancel, Loop.done, Loop.terminate, PromiseState.reject_resolve]
  · simp [Loop.cancel, Loop.kill, Loop.terminate, PromiseState.reject_reject]
  · simp [Loop.cancel, Loop.done, Loop.terminate, PromiseState.resolve_reject]
  · exact Loop.runLoop_of_job_false _ _ _ rfl
  · exact Loop.runLoop_of_job_false _ _ _ rfl

theorem strAppend_left_ne_empty (s t : String) (h : s ≠ "") : s ++ t ≠ "" := by
  intro he
  apply h
  have hl := String.length_append s t
  rw [he] at hl
  have h0 : ("" : String).length = 0 := rfl
  rw [h0] at hl
  have hs : s.length = 0 := by omega
  cases s with
  | mk d =>
    cases d with
    | nil => rfl
    | cons a l => simp [String.length] at hs

/-- C3: registering a second unique loop under an occupied identifier
cancels the first loop (its promise rejects with a Cancel reason whose
message contains the overriding phrase with the identifier), starts the
second loop in the same state as a standalone Loop.until so that it runs
on to its own outcome, and at every instant the registry maps the
identifier to at most one loop, namely the newest. -/
theorem C3_unique_overrides (id : String) (it1 it2 : Option Nat) :
    (World.uniqueUntil (World.uniqueUntil (World.empty (ε := Unit)) id it1 ()) id it2 ()).loops
      = [Loop.cancel (some ("Overriting unique task `" ++ id ++ "` with a newer one."))
           (Loop.startState it1 ()),
         Loop.startState it2 ()]
    ∧ (∃ pre post,
        (Loop.cancel (some ("Overriting unique task `" ++ id ++ "` with a newer one."))
            (Loop.startState it1 (() : Unit))).promise
          = .rejected (pre ++ ("Overriting unique task `" ++ id ++ "`") ++ post))
    ∧ (World.uniqueUntil (World.uniqueUntil (World.empty (ε := Unit)) id it1 ()) id it2
        ()).loopMap id = some 1
    ∧ (∀ k, k ≠ id →
        (World.uniqueUntil (World.uniqueUntil (World.empty (ε := Unit)) id it1 ()) id it2
          ()).loopMap k = none)
    ∧ (World.uniqueUntil (World.empty (ε := Unit)) id it1 ()).loopMap id = some 0
    ∧ (∀ k, k ≠ id → (World.uniqueUntil (World.empty (ε := Unit)) id it1 ()).loopMap k = none)
    ∧ ∀ (h : Loop.Handle Unit) (fuel : Nat),
        Loop.runLoop h fuel
          ((World.uniqueUntil (World.uniqueUntil (World.empty (ε := Unit)) id it1 ()) id it2
            ()).loops.getD 1 (Loop.startState it2 ()))
          = Loop.runLoop h fuel (Loop.startState it2 ()) := by
  have hmsg : ("Overriting unique task `" ++ id ++ "` with a newer one." : String) ≠ "" :=
    strAppend_left_ne_empty _ _ (strAppend_left_ne_empty _ _ (by decide))
  have hC : ("Cancel" : String) ≠ "" := by decide
  refine ⟨?_, ?_, ?_, ?_, ?_, ?_, ?_⟩
  · simp [World.uniqueUntil, World.empty, listUpdate]
  · refine ⟨"[Cancel] ", " with a newer one.", ?_⟩
    simp only [Loop.cancel, Loop.terminate, Loop.startState, Loop.start, Loop.mkState,
      jsDefault, if_neg hC, if_neg hmsg, PromiseState.reject]
    congr 1
    rw [show ("[" ++ "Cancel" ++ "] " : String) = "[Cancel] " from by decide,
      show ("` with a newer one." : String) = "`" ++ " with a newer one." from by decide]
    simp [String.append_assoc]
  · simp [World.uniqueUntil, World.empty, listUpdate]
  · intro k hk
    simp [World.uniqueUntil, World.empty, listUpdate, hk]
  · simp [World.uniqueUntil, World.empty]
  · intro k hk
    simp [World.uniqueUntil, World.empty, hk]
  · intro h fuel
    simp [World.uniqueUntil, World.empty, listUpdate]

theorem C3_witness : ("y" : String) ≠ "x"
    ∧ (World.uniqueUntil (World.uniqueUntil (World.empty (ε := Unit)) "x" none ()) "x" none
        ()).loopMap ("y") = none :=
  ⟨by decide, (C3_unique_overrides ("x") none none).2.2.2.1 ("y") (by decide)⟩

/-- C4 counterexample: the claim says List([]).each(handle) fulfills
without ever invoking the handle, but the each closure invokes the handle
before checking the index bound, so on the empty list a counting handle
observes one invocation (the ext counter ends at 1, not 0, and the loop
records one call) even though the promise does fulfill. -/
theorem C4_counterexample :
    (ListHandler.each ([] : List Nat) (liftUH (fun _ _ n => n + 1)) 1 (0 : Nat)).promise
        = .fulfilled ()
    ∧ ¬((ListHandler.each ([] : List Nat) (liftUH (fun _ _ n => n + 1)) 1 (0 : Nat)).ext = 0)
    ∧ (ListHandler.each ([] : List Nat) (liftUH (fun _ _ n => n + 1)) 1 (0 : Nat)).calls = 1 := by
  refine ⟨rfl, by decide, rfl⟩

/-- C4 (amended): for the empty sequence, List([]).each(handle) fulfills
its promise, but only after invoking the handle exactly once, with the
undefined item (none) and index 0; the handle is never invoked a second
time. -/
theorem C4_each_empty_invokes_once {α ε : Type} (f : Option α → Nat → ε → ε) (e : ε) :
    ListHandler.each ([] : List α) (liftUH f) 1 e
      = { maxIterations := none, iteration := 1, job := false,
          promise := .fulfilled (), calls := 1, ext := f none 0 e }
    ∧ ∀ m, Loop.runLoop (ListHandler.eachHandle [] (liftUH f)) m
        (ListHandler.each ([] : List α) (liftUH f) 1 e)
        = ListHandler.each ([] : List α) (liftUH f) 1 e := by
  have h1 : ListHandler.each ([] : List α) (liftUH f) 1 e
      = { maxIterations := none, iteration := 1, job := false,
          promise := .fulfilled (), calls := 1, ext := f none 0 e } := rfl
  refine ⟨h1, ?_⟩
  intro m
  rw [h1]
  exact Loop.runLoop_of_job_false _ _ _ rfl


theorem firstMatchUnder_eq_none {l : List α} {cond : Option α → Nat → Bool} (m : Nat)
    (h : ∀ i, i < m → cond l[i]? i = false) :
    firstMatchUnder l cond m = none := by
  induction m with
  | zero => rfl
  | succ m ih =>
    simp only [firstMatchUnder]
    rw [ih (fun i hi => h i (by omega)), h m (by omega)]
    simp

theorem firstMatchUnder_eq_some {l : List α} {cond : Option α → Nat → Bool} (j m : Nat)
    (hjm : j < m) (hj : cond l[j]? j = true)
    (hmin : ∀ i, i < j → cond l[i]? i = false) :
    firstMatchUnder l cond m = some j := by
  induction m with
  | zero => omega
  | succ m ih =>
    simp only [firstMatchUnder]
    by_cases hjm' : j < m
    · rw [ih hjm']
    · have hje : j = m := by omega
      subst hje
      rw [firstMatchUnder_eq_none j hmin, hj]
      simp

theorem firstMatchUnder_succ_eq (l : List α) (cond : Option α → Nat → Bool) (k : Nat)
    (hk : 1 ≤ k) :
    firstMatchUnder l cond k
      = match firstMatchUnder l cond (k - 1) with
        | some j => some j
        | none => if cond l[k - 1]? (k - 1) = true then some (k - 1) else none := by
  obtain ⟨m, rfl⟩ : ∃ m, k = m + 1 := ⟨k - 1, by omega⟩
  rfl

theorem find_step (l : List α) (cond : Option α → Nat → Bool) (k : Nat)
    (hk : 1 ≤ k) (hkL : k < l.length) :
    Loop.fire (ListHandler.eachHandle l (ListHandler.findUserHandle cond)) (eachMid l cond k)
      = eachMid l cond (k + 1) := by
  have hk1 : k - 1 + 1 = k := by omega
  have hdec : decide ((k : Int) > (l.length : Int) - 1) = false := by
    simp only [decide_eq_false_iff_not]
    omega
  by_cases hc : cond l[k - 1]? (k - 1) = true
  · rcases hm : firstMatchUnder l cond (k - 1) with _ | j
    · have hfk : firstMatchUnder l cond k = some (k - 1) := by
        rw [firstMatchUnder_succ_eq l cond k hk, hm]
        simp [hc]
      simp [Loop.fire, ListHandler.eachHandle, ListHandler.findUserHandle, eachMid,
        findExtAfter, Loop.done, PromiseState.resolve, hk1, hdec, hc, hm, hfk,
        truthyOptNat]
    · have hfk : firstMatchUnder l cond k = some j := by
        rw [firstMatchUnder_succ_eq l cond k hk, hm]
      simp [Loop.fire, ListHandler.eachHandle, ListHandler.findUserHandle, eachMid,
        findExtAfter, Loop.done, PromiseState.resolve, hk1, hdec, hc, hm, hfk,
        truthyOptNat]
  · rcases hm : firstMatchUnder l cond (k - 1) with _ | j
    · have hfk : firstMatchUnder l cond k = none := by
        rw [firstMatchUnder_succ_eq l cond k hk, hm]
        simp [hc]
      simp [Loop.fire, ListHandler.eachHandle, ListHandler.findUserHandle, eachMid,
        findExtAfter, Loop.done, PromiseState.resolve, hk1, hdec, hc, hm, hfk,
        truthyOptNat]
    · have hfk : firstMatchUnder l cond k = some j := by
        rw [firstMatchUnder_succ_eq l cond k hk, hm]
      simp [Loop.fire, ListHandler.eachHandle, ListHandler.findUserHandle, eachMid,
        findExtAfter, Loop.done, PromiseState.resolve, hk1, hdec, hc, hm, hfk,
        truthyOptNat]

theorem find_last (l : List α) (cond : Option α → Nat → Bool) (hL : 1 ≤ l.length) :
    Loop.fire (ListHandler.eachHandle l (ListHandler.findUserHandle cond))
      (eachMid l cond l.length)
      = finalEach l cond := by
  have hk1 : l.length - 1 + 1 = l.length := by omega
  have hdec : decide ((l.length : Int) > (l.length : Int) - 1) = true := by
    simp only [decide_eq_true_eq]
    omega
  by_cases hc : cond l[l.length - 1]? (l.length - 1) = true
  · rcases hm : firstMatchUnder l cond (l.length - 1) with _ | j
    · have hfk : firstMatchUnder l cond l.length = some (l.length - 1) := by
        rw [firstMatchUnder_succ_eq l cond l.length hL, hm]
        simp [hc]
      simp [Loop.fire, ListHandler.eachHandle, ListHandler.findUserHandle, eachMid,
        finalEach, findExtAfter, Loop.done, PromiseState.resolve, hk1, hdec, hc, hm, hfk]
    · have hfk : firstMatchUnder l cond l.length = some j := by
        rw [firstMatchUnder_succ_eq l cond l.length hL, hm]
      simp [Loop.fire, ListHandler.eachHandle, ListHandler.findUserHandle, eachMid,
        finalEach, findExtAfter, Loop.done, PromiseState.resolve, hk1, hdec, hc, hm, hfk]
  · rcases hm : firstMatchUnder l cond (l.length - 1) with _ | j
    · have hfk : firstMatchUnder l cond l.length = none := by
        rw [firstMatchUnder_succ_eq l cond l.length hL, hm]
        simp [hc]
      simp [Loop.fire, ListHandler.eachHandle, ListHandler.findUserHandle, eachMid,
        finalEach, findExtAfter, Loop.done, PromiseState.resolve, hk1, hdec, hc, hm, hfk]
    · have hfk : firstMatchUnder l cond l.length = some j := by
        rw [firstMatchUnder_succ_eq l cond l.length hL, hm]
      simp [Loop.fire, ListHandler.eachHandle, ListHandler.findUserHandle, eachMid,
        finalEach, findExtAfter, Loop.done, PromiseState.resolve, hk1, hdec, hc, hm, hfk]

theorem find_run (l : List α) (cond : Option α → Nat → Bool) :
    ∀ d k, 1 ≤ k → k + d = l.length →
      Loop.runLoop (ListHandler.eachHandle l (ListHandler.findUserHandle cond)) (d + 1)
        (eachMid l cond k)
        = finalEach l cond := by
  intro d
  induction d with
  | zero =>
    intro k hk hkL
    have hke : k = l.length := by omega
    subst hke
    rw [Loop.runLoop_succ, if_pos (show (eachMid l cond l.length).job = true from rfl)]
    simp only [Loop.runLoop]
    exact find_last l cond (by omega)
  | succ d ih =>
    intro k hk hkL
    rw [Loop.runLoop_succ, if_pos (show (eachMid l cond k).job = true from rfl),
      find_step l cond k hk (by omega)]
    exact ih (k + 1) (by omega) (by omega)

theorem find_each_run (l : List α) (cond : Option α → Nat → Bool) (hL : 1 ≤ l.length) :
    ListHandler.each l (ListHandler.findUserHandle cond) l.length
      { resolved := false, out := .pending }
      = finalEach l cond := by
  have hstart : Loop.startState none ({ resolved := false, out := .pending } : FindExt α)
      = eachMid l cond 1 := rfl
  have hfuel : l.length = (l.length - 1) + 1 := by omega
  rw [ListHandler.each, Loop.untilRun, hstart]
  conv_lhs => rw [hfuel]
  exact find_run l cond (l.length - 1) 1 (by omega) (by omega)

/-- C5 counterexample: the claim says this.done() stops iteration at the
first match, so on [10, 20, 30] with the match at index 1 the handle would
run exactly twice; in the code the tick that matched still returns a falsy
index check and reschedules, so the handle runs three times (once per
element) even though the outer promise does fulfill with the first
match. -/
theorem C5_counterexample :
    (ListHandler.find [10, 20, 30] (fun item _ => item == some 20) 3).ext.out
        = .fulfilled (some 20, 1)
    ∧ ¬((ListHandler.find [10, 20, 30] (fun item _ => item == some 20) 3).calls = 2)
    ∧ (ListHandler.find [10, 20, 30] (fun item _ => item == some 20) 3).calls = 3
    ∧ (ListHandler.find [10, 20, 30] (fun item _ => item == some 20) 3).job = false := by
  refine ⟨rfl, by decide, rfl, rfl⟩

/-- C5 (amended): find fulfills its outer promise with {item, index} of
the lowest-index element satisfying the condition, and this.done() settles
the loop promise at that point, but it does not stop iteration: the loop
keeps invoking the handle once per element until the index check completes
(length invocations for a nonempty list, one invocation with the undefined
item for the empty list); when no invocation matches, the outer promise
rejects with exactly null. -/
theorem C5_find_first_match (l : List α) (cond : Option α → Nat → Bool) :
    (ListHandler.find l cond (max l.length 1)).calls = max l.length 1
    ∧ (ListHandler.find l cond (max l.length 1)).job = false
    ∧ (ListHandler.find l cond (max l.length 1)).promise = .fulfilled ()
    ∧ (∀ j, j < l.length → cond l[j]? j = true →
        (∀ i, i < j → cond l[i]? i = false) →
        (ListHandler.find l cond (max l.length 1)).ext.out = .fulfilled (l[j]?, j))
    ∧ ((∀ i, i < max l.length 1 → cond l[i]? i = false) →
        (ListHandler.find l cond (max l.length 1)).ext.out = .rejected ()) := by
  by_cases hL : 1 ≤ l.length
  · have hmax : max l.length 1 = l.length := by omega
    have hs : ListHandler.each l (ListHandler.findUserHandle cond) (max l.length 1)
        { resolved := false, out := .pending } = finalEach l cond := by
      rw [hmax]
      exact find_each_run l cond hL
    rcases hfm : firstMatchUnder l cond l.length with _ | j0
    · have hfind : ListHandler.find l cond (max l.length 1)
          = { finalEach l cond with
              ext := { resolved := false, out := .rejected () } } := by
        simp only [ListHandler.find]
        rw [hs]
        simp [finalEach, findExtAfter, hfm, PromiseState.reject]
      refine ⟨?_, ?_, ?_, ?_, ?_⟩
      · rw [hfind]; simp [finalEach, hmax]
      · rw [hfind]; simp [finalEach]
      · rw [hfind]; simp [finalEach]
      · intro j hj hcj hmin
        have := firstMatchUnder_eq_some j l.length hj hcj hmin
        rw [hfm] at this
        cases this
      · intro _
        rw [hfind]
    · have hext : findExtAfter l cond l.length
          = { resolved := true, out := .fulfilled (l[j0]?, j0) } := by
        simp [findExtAfter, hfm]
      have hfind : ListHandler.find l cond (max l.length 1) = finalEach l cond := by
        simp only [ListHandler.find]
        rw [hs]
        simp [finalEach, hext]
      refine ⟨?_, ?_, ?_, ?_, ?_⟩
      · rw [hfind]; simp [finalEach, hmax]
      · rw [hfind]; simp [finalEach]
      · rw [hfind]; simp [finalEach]
      · intro j hj hcj hmin
        have hj0 := firstMatchUnder_eq_some j l.length hj hcj hmin
        rw [hfm] at hj0
        injection hj0 with hj0
        subst hj0
        rw [hfind]
        simp [finalEach, hext]
      · intro hall
        have := firstMatchUnder_eq_none l.length (fun i hi => hall i (by omega))
        rw [hfm] at this
        cases this
  · have hl0 : l.length = 0 := by omega
    have hle : l = [] := List.length_eq_zero.mp hl0
    subst hle
    by_cases hc : cond none 0 = true
    · have hfind : ListHandler.find ([] : List α) cond (max ([] : List α).length 1)
          = { maxIterations := none, iteration := 1, job := false,
              promise := .fulfilled (), calls := 1,
              ext := { resolved := true, out := .fulfilled (none, 0) } } := by
        simp [ListHandler.find, ListHandler.each, Loop.untilRun, Loop.runLoop,
          Loop.startState, Loop.start, Loop.mkState, Loop.fire, ListHandler.eachHandle,
          ListHandler.findUserHandle, Loop.done, PromiseState.resolve, hc, truthyOptNat]
      refine ⟨?_, ?_, ?_, ?_, ?_⟩
      · rw [hfind]; simp
      · rw [hfind]
      · rw [hfind]
      · intro j hj _ _
        simp at hj
      · intro hall
        have := hall 0 (by simp)
        simp at this
        rw [this] at hc
        cases hc
    · have hfind : ListHandler.find ([] : List α) cond (max ([] : List α).length 1)
          = { maxIterations := none, iteration := 1, job := false,
              promise := .fulfilled (), calls := 1,
              ext := { resolved := false, out := .rejected () } } := by
        simp [ListHandler.find, ListHandler.each, Loop.untilRun, Loop.runLoop,
          Loop.startState, Loop.start, Loop.mkState, Loop.fire, ListHandler.eachHandle,
          ListHandler.findUserHandle, Loop.done, PromiseState.resolve, PromiseState.reject,
          hc, truthyOptNat]
      refine ⟨?_, ?_, ?_, ?_, ?_⟩
      · rw [hfind]; simp
      · rw [hfind]
      · rw [hfind]
      · intro j hj _ _
        simp at hj
      · intro _
        rw [hfind]

theorem C5_witness : (1 < List.length [10, 20, 30])
    ∧ ((fun (item : Option Nat) (_ : Nat) => item == some 20) [10, 20, 30][1]? 1 = true)
    ∧ (ListHandler.find [10, 20, 30] (fun item _ => item == some 20)
        (max (List.length [10, 20, 30]) 1)).ext.out = .fulfilled ([10, 20, 30][1]?, 1) := by
  refine ⟨by decide, by decide, ?_⟩
  exact (C5_find_first_match [10, 20, 30] (fun item _ => item == some 20)).2.2.2.1 1
    (by decide) (by decide)
    (fun i hi => by
      have h0 : i = 0 := by omega
      subst h0
      decide)

/-- C6: exec posts the request envelope {type: "exec", data: params} to
the worker, and when the handle throws inside the worker the template
posts back the failure envelope {type: "error", data: {message, stack}},
which the installed onmessage handler turns into a rejection of the exec
promise with that structured payload. -/
theorem C6_exec_protocol {α : Type} (t : ThreadState α) (params : Option (List α))
    (hw : t.worker = true)
    (handle : List α → Except JsError α) (l : List α) (ex : JsError)
    (hthrow : handle l = .error ex) :
    (Thread.exec t params).2 = some { type := "exec", data := params.getD [] }
    ∧ Thread.template handle { type := "exec", data := l }
        = some { type := "error", data := .errObj ex.message ex.stack }
    ∧ Thread.onmessage (Thread.exec t params).1
        { type := "error", data := .errObj ex.message ex.stack }
        = { t with deferred := some (.rejected (.errObj ex.message ex.stack)) } := by
  refine ⟨?_, ?_, ?_⟩
  · simp [Thread.exec, hw]
  · simp [Thread.template, hthrow]
  · have h1 : (Thread.exec t params).1 = { t with deferred := some .pending } := by
      simp [Thread.exec, hw]
    rw [h1]
    simp [Thread.onmessage, PromiseState.reject]

theorem C6_witness :
    ({ worker := true, url := true, deferred := none } : ThreadState Nat).worker = true
    ∧ ((fun (_ : List Nat) => (Except.error ⟨"boom", "trace"⟩ : Except JsError Nat)) [1]
        = .error ⟨"boom", "trace"⟩)
    ∧ Thread.template (fun (_ : List Nat) => (Except.error ⟨"boom", "trace"⟩ : Except JsError Nat))
        { type := "exec", data := [1] }
        = some { type := "error", data := .errObj ("boom") ("trace") } := by
  refine ⟨rfl, rfl, ?_⟩
  exact (C6_exec_protocol { worker := true, url := true, deferred := none } (some [1]) rfl
    (fun _ => .error ⟨"boom", "trace"⟩) [1] ⟨"boom", "trace"⟩ rfl).2.1

/-- C7 counterexample: the claim says terminate with no pending exec still
completes without failure, but on a started Thread whose exec was never
called the deferred field is still null, so this.deferred.reject throws a
TypeError (second component true), after the worker and url were already
nulled. -/
theorem C7_counterexample :
    (Thread.terminate (α := Nat) { worker := true, url := true, deferred := none }).2 = true
    ∧ (Thread.terminate (α := Nat) { worker := true, url := true, deferred := none }).1
        = { worker := false, url := false, deferred := none } :=
  ⟨rfl, rfl⟩

/-- C7 (amended): on a started Thread that has a deferred (exec was called
at least once), terminate destroys the worker, releases the object URL,
nulls both, rejects the deferred with the string "Terminated", and throws
nothing; when that deferred is still pending it ends rejected with
"Terminated".  (When exec never ran, terminate instead throws a TypeError
on the null deferred: see the counterexample.) -/
theorem C7_terminate_rejects_pending {α : Type} (t : ThreadState α)
    (d : PromiseState (TVal α) (TVal α)) (hw : t.worker = true) (hd : t.deferred = some d) :
    (Thread.terminate t).1.worker = false
    ∧ (Thread.terminate t).1.url = false
    ∧ (Thread.terminate t).1.deferred = some (d.reject (.str ("Terminated")))
    ∧ (Thread.terminate t).2 = false
    ∧ (d = .pending →
        (Thread.terminate t).1.deferred = some (.rejected (.str ("Terminated")))) := by
  refine ⟨?_, ?_, ?_, ?_, ?_⟩
  · simp [Thread.terminate, hw, hd]
  · simp [Thread.terminate, hw, hd]
  · simp [Thread.terminate, hw, hd]
  · simp [Thread.terminate, hw, hd]
  · intro hp
    subst hp
    simp [Thread.terminate, hw, hd, PromiseState.reject]

theorem C7_witness :
    ({ worker := true, url := true, deferred := some .pending } : ThreadState Nat).worker = true
    ∧ ({ worker := true, url := true, deferred := some .pending } : ThreadState Nat).deferred
        = some .pending
    ∧ (Thread.terminate
        ({ worker := true, url := true, deferred := some .pending } : ThreadState Nat)).1.deferred
        = some (.rejected (.str ("Terminated"))) :=
  ⟨rfl, rfl,
    (C7_terminate_rejects_pending { worker := true, url := true, deferred := some .pending }
      .pending rfl rfl).2.2.2.2 rfl⟩

/-- C8: If(() => true).then(() => "A").else(() => "B") makes the outer
proxy wrap a continuation that resolves to "A", the false condition makes
it resolve to "B", and the else method returns a new proxy wrapping the
continuation of the first proxy (with the default no-op handles), so that
then-else chains. -/
theorem C8_if_branches (p : ForkProxy) (h : Unit → FV ⊕ ForkProxy) :
    (IfChain (fun _ => .bool true)
        (fun _ => .inl (.str ("A"))) (fun _ => .inl (.str ("B")))).promiseVal = .str ("A")
    ∧ (IfChain (fun _ => .bool false)
        (fun _ => .inl (.str ("A"))) (fun _ => .inl (.str ("B")))).promiseVal = .str ("B")
    ∧ (p.elseM h).2 = ForkProxy.mk (ForkProxy.next (p.elseM h).1)
        (fun _ => .inl .undefined) (fun _ => .inl .undefined)
    ∧ (p.elseM h).1 = ForkProxy.mk p.promiseVal p.thenHandle h :=
  ⟨rfl, rfl, rfl, rfl⟩

/-- C10: when the condition produces a value that is neither strictly true
nor strictly false (a truthy string, null, undefined), the fork
continuation leaves `returns` at its initial null, invoking neither the
registered then handle nor the registered else handle (the result does not
depend on them), and the continuation of the proxy resolves with null. -/
theorem C10_nonboolean_condition (cond : Unit → FV) (fA fB : Unit → FV ⊕ ForkProxy)
    (h1 : cond () ≠ .bool true) (h2 : cond () ≠ .bool false) :
    ForkProxy.next (((If cond).thenM fA).elseM fB).1 = .null
    ∧ (((If cond).thenM fA).elseM fB).2.promiseVal = .null := by
  constructor
  · simp [ForkProxy.next, ForkProxy.resolve, ForkProxy.promiseVal, If, ForkProxy.thenM,
      ForkProxy.elseM, ForkProxy.thenHandle, ForkProxy.elseHandle, h1, h2]
  · simp [ForkProxy.next, ForkProxy.resolve, ForkProxy.promiseVal, If, ForkProxy.thenM,
      ForkProxy.elseM, ForkProxy.thenHandle, ForkProxy.elseHandle, h1, h2]

theorem C10_witness : ((fun _ => FV.str ("yes")) () ≠ FV.bool true)
    ∧ ((fun _ => FV.str ("yes")) () ≠ FV.bool false)
    ∧ ForkProxy.next (((If (fun _ => FV.str ("yes"))).thenM
        (fun _ => .inl (.str ("A")))).elseM (fun _ => .inl (.str ("B")))).1 = .null :=
  ⟨by decide, by decide,
    (C10_nonboolean_condition (fun _ => FV.str ("yes")) (fun _ => .inl (.str ("A")))
      (fun _ => .inl (.str ("B"))) (by decide) (by decide)).1⟩
